import Mathlib

set_option autoImplicit false

/-!
Shallow embedding of the `readabs` package (src/readabs/abs_query.py and
src/readabs/connection.py) together with theorems settling the
specification's claims about it.
-/

/-! ### Python-style primitives -/

/-- Python truthiness of an optional string (`if s:`): None and "" are falsy. -/
def truthyStr : Option String → Bool
  | none => false
  | some s => s ≠ ""

/-- Python truthiness of an optional int (`if pg:`): None and 0 are falsy. -/
def truthyInt : Option Int → Bool
  | none => false
  | some n => n ≠ 0

/-- Python substring test `pat in s`. -/
def strContains (s pat : String) : Bool := decide (pat.data <:+: s.data)

/-- Success of Python `re.search(r"\.0$", s)`: without re.MULTILINE the
    anchor matches at the end of the string and also just before a trailing
    newline, so the pattern matches exactly when `s` ends with ".0" or with
    ".0\n". -/
def endsWithDot0 (s : String) : Bool :=
  decide (".0".data <:+ s.data) || decide (".0\n".data <:+ s.data)

/-- Helper for `pyInt`: accumulate decimal digits; `none` when the characters
    are empty or contain a non-digit. -/
def digitsToNat : List Char → Option Nat → Option Nat
  | [], acc => acc
  | c :: cs, acc =>
    if c.isDigit then digitsToNat cs (some (acc.getD 0 * 10 + (c.toNat - 48)))
    else none

/-- Models Python `int(s)` on an optionally-signed decimal string; `none`
    models the ValueError raised on any other shape. -/
def pyInt (s : String) : Option Int :=
  match s.data with
  | '-' :: rest => (digitsToNat rest none).map (fun n => -(n : Int))
  | l => (digitsToNat l none).map (fun n => (n : Int))

/-- Python dict assignment `d[k] = v` on an insertion-ordered dict: overwrite
    in place when the key exists, else append. -/
def dictInsert (d : List (String × String)) (k v : String) : List (String × String) :=
  if d.any (fun p => p.1 == k) then d.map (fun p => if p.1 == k then (k, v) else p)
  else d ++ [(k, v)]

/-- Python dict lookup `d[k]`; `none` models the KeyError. -/
def dictGet (d : List (String × String)) (k : String) : Option String :=
  (d.find? (fun p => p.1 == k)).map Prod.snd

/-- Error kinds of the embedded code. Each constructor stands for one concrete
    exception site of the source:
    * `invalidCatNo` — ABSQueryError "catno must end in '.0'" (abs_query.py:107)
    * `missingIdentifier` — ABSQueryError "Either catno or seriesID must be
      provided" (abs_query.py:113)
    * `malformedEntry tag` — ABSQueryError "No text found for child tag ..."
      (abs_query.py:207)
    * `emptyCatalogue` — ABSQueryError "._get_serieslist() did not set
      .series_list properly." (abs_query.py:232)
    * `tableInfoUnset` — ABSQueryError "._self_table_info() did not set
      .table_info properly." (abs_query.py:262)
    * `missingDateColumn` — ABSQueryError "Can't find renamed date_col date
      column from _rename_cols()." (abs_query.py:340)
    * `noDataSheets` — the TypeError raised by `reduce` on an empty sheet list
      (abs_query.py:315), the spec's NoDataSheets
    * `keyError k` — Python KeyError on a missing dict or column key
    * `valueError s` — Python ValueError from `int(s)` (abs_query.py:175) -/
inductive QErr where
  | invalidCatNo
  | missingIdentifier
  | malformedEntry (tag : String)
  | emptyCatalogue
  | tableInfoUnset
  | missingDateColumn
  | noDataSheets
  | keyError (k : String)
  | valueError (s : String)
deriving DecidableEq

/-! ### Identifier (classes CatNo and SeriesID, ABSQuery.__init__) -/

/-- Sum type for the query identifier, mirroring classes `CatNo` and
    `SeriesID` (abs_query.py:25-33). -/
inductive ABSId where
  | catNo (catno : String)
  | seriesID (series_id : String)
deriving DecidableEq

/-- Identifier validation of `ABSQuery.__init__` (abs_query.py:101-113): a
    truthy catno must end in ".0" and is preferred over seriesID; otherwise a
    truthy seriesID is accepted; otherwise the constructor raises. -/
def absQueryInit (catno seriesID : Option String) : Except QErr ABSId :=
  if truthyStr catno then
    if endsWithDot0 (catno.getD "") then Except.ok (ABSId.catNo (catno.getD ""))
    else Except.error QErr.invalidCatNo
  else if truthyStr seriesID then Except.ok (ABSId.seriesID (seriesID.getD ""))
  else Except.error QErr.missingIdentifier

/-! ### Query builder (ABSQuery._construct_query) -/

/-- Value of `ABSQuery._base_query` (abs_query.py:74); the Python raw string
    contains a literal backslash before the question mark. -/
def base_query : String := "https://abs.gov.au:443/servlet/TSSearchServlet\\?"

/-- URL assembly of `ABSQuery._construct_query` (abs_query.py:134-158). -/
def construct_query (i : ABSId) (table_title : Option String) (pg : Option Int) : String :=
  let out1 : List String :=
    if truthyStr table_title then ["ttitle=" ++ table_title.getD ""] else []
  let out2 : List String :=
    if truthyInt pg then ["pg=" ++ toString (pg.getD 0)] else []
  let out3 : List String :=
    match i with
    | ABSId.catNo c => ["catno=" ++ c]
    | ABSId.seriesID s => ["sid=" ++ s]
  base_query ++ String.intercalate "&" ((out1 ++ out2 ++ out3).filter (fun e => e ≠ ""))

/-- Claim C9's reading of `buildQuery`, assembled from the spec's words: the
    base endpoint followed by the present parameters joined in the fixed
    order title, page, identifier, omitting every parameter whose value is
    absent or zero (an empty title supplies no value). -/
def buildQuerySpec (i : ABSId) (table_title : Option String) (pg : Option Int) : String :=
  let titleParam : Option String :=
    table_title.bind (fun t => if t = "" then none else some ("ttitle=" ++ t))
  let pgParam : Option String :=
    pg.bind (fun p => if p = 0 then none else some ("pg=" ++ toString p))
  let idParam : String :=
    match i with
    | ABSId.catNo c => "catno=" ++ c
    | ABSId.seriesID s => "sid=" ++ s
  base_query ++ String.intercalate "&" (titleParam.toList ++ pgParam.toList ++ [idParam])

/-! ### XML model (xml.etree.ElementTree) -/

/-- Model of an ElementTree Element: a tag, optional text, child elements. -/
inductive XML where
  | elem (tag : String) (text : Option String) (children : List XML)

def XML.tag : XML → String
  | XML.elem t _ _ => t

def XML.text : XML → Option String
  | XML.elem _ txt _ => txt

def XML.children : XML → List XML
  | XML.elem _ _ cs => cs

/-- ElementTree `element.find(tag)`: the first direct child with the tag. -/
def XML.find (x : XML) (tag : String) : Option XML :=
  x.children.find? (fun c => c.tag == tag)

/-- ElementTree `element.extend(elems)`: append new children. -/
def XML.extend (x : XML) (es : List XML) : XML :=
  XML.elem x.tag x.text (x.children ++ es)

mutual

/-- ElementTree `element.iter(tag)`: the element itself and all descendants
    carrying the tag, in document order. -/
def XML.iterE : XML → String → List XML
  | XML.elem t txt cs, tag =>
    (if t = tag then [XML.elem t txt cs] else []) ++ XML.iterL cs tag

def XML.iterL : List XML → String → List XML
  | [], _ => []
  | c :: cs, tag => XML.iterE c tag ++ XML.iterL cs tag

end

/-! ### Catalogue fetcher (ABSQuery._get_timeseries_dict_xml, _get_serieslist) -/

/-- Structured view of the page-count inspection in
    `_get_timeseries_dict_xml` (abs_query.py:173-177): `some .absent` when
    there is no NumPages child or its text is falsy, `some (.count n)` when
    the text parses as the integer n, and `none` when `int(...)` would raise
    ValueError. -/
inductive PageCountView where
  | absent
  | count (n : Int)
deriving DecidableEq

def pageCountView (root : XML) : Option PageCountView :=
  match root.find "NumPages" with
  | none => some PageCountView.absent
  | some e =>
    match e.text with
    | none => some PageCountView.absent
    | some s =>
      if s = "" then some PageCountView.absent
      else
        match pyInt s with
        | none => none
        | some n => some (PageCountView.count n)

/-- Fetching and page-stitching of `ABSQuery._get_timeseries_dict_xml`
    (abs_query.py:160-184). The transport plus `ET.fromstring` parsing of one
    page is abstracted as `getPage`; the returned list records which page
    numbers were fetched (page 1 via `get_one`, pages 2..N via one concurrent
    `get_many` batch, whose responses `asyncio.gather` yields in request
    order). Pages 2..N are appended as children of page 1's root. -/
def get_timeseries_dict_xml (getPage : Nat → XML) : Except QErr (XML × List Nat) :=
  match (getPage 1).find "NumPages" with
  | none => Except.ok (getPage 1, [1])
  | some e =>
    match e.text with
    | none => Except.ok (getPage 1, [1])
    | some s =>
      if s = "" then Except.ok (getPage 1, [1])
      else
        match pyInt s with
        | none => Except.error (QErr.valueError s)
        | some n =>
          if 1 < n then
            Except.ok ((getPage 1).extend ((List.range' 2 (n.toNat - 1)).map getPage),
              1 :: List.range' 2 (n.toNat - 1))
          else Except.ok (getPage 1, [1])

/-- One catalogue record: the Python dict from child tag to child text
    (type alias ABSSeries, abs_query.py:22). -/
abbrev ABSSeries := List (String × String)

/-- Inner loop of `_get_serieslist` (abs_query.py:203-207): fold the children
    of one Series element into a dict, raising on a child whose text is None
    or empty. -/
def childrenToDict : List XML → ABSSeries → Except QErr ABSSeries
  | [], acc => Except.ok acc
  | XML.elem t txt _ :: rest, acc =>
    match txt with
    | some s =>
      if s = "" then Except.error (QErr.malformedEntry t)
      else childrenToDict rest (dictInsert acc t s)
    | none => Except.error (QErr.malformedEntry t)

def seriesFromElem (e : XML) : Except QErr ABSSeries :=
  childrenToDict e.children []

/-- Outer loop of `_get_serieslist` (abs_query.py:200-209): one dict per
    Series element of `xml.iter('Series')`, fail-fast. -/
def collectSeries : List XML → Except QErr (List ABSSeries)
  | [] => Except.ok []
  | e :: rest =>
    match seriesFromElem e with
    | Except.error q => Except.error q
    | Except.ok d =>
      match collectSeries rest with
      | Except.error q => Except.error q
      | Except.ok ds => Except.ok (d :: ds)

/-- Records contributed by one page root on its own. -/
def recordsOfPage (root : XML) : Except QErr (List ABSSeries) :=
  collectSeries (XML.iterE root "Series")

/-- Per-page record extraction over a list of page numbers, fail-fast in page
    order. -/
def pagesRecords (getPage : Nat → XML) : List Nat → Except QErr (List (List ABSSeries))
  | [] => Except.ok []
  | k :: ks =>
    match recordsOfPage (getPage k) with
    | Except.error q => Except.error q
    | Except.ok r =>
      match pagesRecords getPage ks with
      | Except.error q => Except.error q
      | Except.ok rs => Except.ok (r :: rs)

/-- The composition the spec calls `fetchCatalogue`: page fetching and
    stitching followed by the record extraction of `_get_serieslist`
    (abs_query.py:197-209), also reporting the fetched page numbers. -/
def fetchCatalogue (getPage : Nat → XML) : Except QErr (List ABSSeries × List Nat) :=
  match get_timeseries_dict_xml getPage with
  | Except.error q => Except.error q
  | Except.ok (xml, log) =>
    match collectSeries (XML.iterE xml "Series") with
    | Except.error q => Except.error q
    | Except.ok recs => Except.ok (recs, log)

def fetchRecords (getPage : Nat → XML) : Except QErr (List ABSSeries) :=
  match fetchCatalogue getPage with
  | Except.error q => Except.error q
  | Except.ok (recs, _) => Except.ok recs

/-- Three-page directory fixture for the claim C1 witness. -/
def c1page1 : XML :=
  XML.elem "TimeSeriesIndex" none
    [XML.elem "NumPages" (some "3") [],
     XML.elem "Series" none [XML.elem "TableTitle" (some "T1") []]]

def c1page2 : XML :=
  XML.elem "TimeSeriesIndex" none
    [XML.elem "Series" none [XML.elem "TableTitle" (some "T2") []]]

def c1page3 : XML :=
  XML.elem "TimeSeriesIndex" none
    [XML.elem "Series" none [XML.elem "TableTitle" (some "T3") []]]

def c1getPage : Nat → XML
  | 2 => c1page2
  | 3 => c1page3
  | _ => c1page1

/-! ### Catalogue index sessions (ABSQuery attributes and methods) -/

/-- Mutable attributes of an `ABSQuery` object used by the catalogue-index
    methods (abs_query.py:93-99). -/
structure Session where
  id : ABSId
  table_title : Option String
  series_list : Option (List ABSSeries)
  table_info : Option (List (String × String))
deriving DecidableEq

/-- Session state right after `ABSQuery.__init__`: both caches unset. -/
def initSession (i : ABSId) (table_title : Option String) : Session :=
  { id := i, table_title := table_title, series_list := none, table_info := none }

/-- Python truthiness of the cached series list (`if not self.series_list:`,
    abs_query.py:197): None and the empty list are falsy. -/
def truthyCache : Option (List ABSSeries) → Bool
  | some (_ :: _) => true
  | _ => false

/-- `ABSQuery._get_serieslist` (abs_query.py:186-213) as a state transformer;
    the final Nat counts executions of the underlying catalogue fetch. -/
def get_serieslist_s (getPage : Nat → XML) (s : Session) :
    Except QErr (List ABSSeries) × Session × Nat :=
  if truthyCache s.series_list then (Except.ok (s.series_list.getD []), s, 0)
  else
    match fetchRecords getPage with
    | Except.error q => (Except.error q, s, 1)
    | Except.ok recs => (Except.ok recs, { s with series_list := some recs }, 1)

/-- Dict comprehension of `_get_table_info` (abs_query.py:225), fail-fast on a
    record missing the TableTitle or TableURL key. -/
def buildTableInfoAux : List ABSSeries → List (String × String) →
    Except QErr (List (String × String))
  | [], acc => Except.ok acc
  | e :: rest, acc =>
    match dictGet e "TableTitle" with
    | none => Except.error (QErr.keyError "TableTitle")
    | some t =>
      match dictGet e "TableURL" with
      | none => Except.error (QErr.keyError "TableURL")
      | some u => buildTableInfoAux rest (dictInsert acc t u)

def buildTableInfo (sl : List ABSSeries) : Except QErr (List (String × String)) :=
  buildTableInfoAux sl []

/-- `ABSQuery._get_table_info` (abs_query.py:215-232). -/
def get_table_info_s (getPage : Nat → XML) (s : Session) :
    Except QErr (List (String × String)) × Session × Nat :=
  match get_serieslist_s getPage s with
  | (Except.error q, s1, n) => (Except.error q, s1, n)
  | (Except.ok sl, s1, n) =>
    if sl ≠ [] ∧ s1.table_info = none then
      match buildTableInfo sl with
      | Except.error q => (Except.error q, s1, n)
      | Except.ok ti => (Except.ok ti, { s1 with table_info := some ti }, n)
    else if s1.table_info ≠ none then (Except.ok (s1.table_info.getD []), s1, n)
    else (Except.error QErr.emptyCatalogue, s1, n)

/-- `ABSQuery.get_table_names` (abs_query.py:234-243); the Python set of dict
    keys is modelled by the (duplicate-free) key list of the dict. -/
def get_table_names_s (getPage : Nat → XML) (s : Session) :
    Except QErr (Option (List String)) × Session × Nat :=
  match get_table_info_s getPage s with
  | (Except.error q, s1, n) => (Except.error q, s1, n)
  | (Except.ok ti, s1, n) =>
    (Except.ok (if ti ≠ [] then some (ti.map Prod.fst) else none), s1, n)

/-- `ABSQuery.get_table_links` (abs_query.py:245-262). -/
def get_table_links_s (getPage : Nat → XML) (table_title : String) (s : Session) :
    Except QErr (List (String × String)) × Session × Nat :=
  match get_table_info_s getPage s with
  | (Except.error q, s1, n) => (Except.error q, s1, n)
  | (Except.ok ti, s1, n) =>
    if ti ≠ [] then (Except.ok (ti.filter (fun p => strContains p.1 table_title)), s1, n)
    else (Except.error QErr.tableInfoUnset, s1, n)

/-- One catalogue-index call on a session. `dataframe t` stands for
    `get_dataframe` (abs_query.py:264-285), whose effect on the session and
    on the catalogue fetcher is exactly that of the `get_table_links` call it
    begins with: the workbook downloads after that call touch neither the
    session's cached attributes nor the catalogue fetcher. -/
inductive CatCall where
  | names
  | links (table_title : String)
  | dataframe (table_title : String)

/-- Session and catalogue-fetch-count effect of one call. -/
def runCall (getPage : Nat → XML) (c : CatCall) (s : Session) : Session × Nat :=
  match c with
  | CatCall.names => (get_table_names_s getPage s).2
  | CatCall.links t => (get_table_links_s getPage t s).2
  | CatCall.dataframe t => (get_table_links_s getPage t s).2

/-- Cumulative session and fetch-count effect of a call sequence. -/
def runCalls (getPage : Nat → XML) : List CatCall → Session → Session × Nat
  | [], s => (s, 0)
  | c :: cs, s =>
    ((runCalls getPage cs (runCall getPage c s).1).1,
      (runCall getPage c s).2 + (runCalls getPage cs (runCall getPage c s).1).2)

/-- Session state after a first successful indexing call: both caches set. -/
def cachedSession (i : ABSId) (tt0 : Option String) (recs : List ABSSeries)
    (ti : List (String × String)) : Session :=
  { id := i, table_title := tt0, series_list := some recs, table_info := some ti }

/-- Session invariant backing claim C10: a cached title-to-URL map is never
    empty. -/
def tableInfoInv (s : Session) : Prop := ∀ ti, s.table_info = some ti → ti ≠ []

/-- Directory page with zero Series records, for the claim C3 counterexample. -/
def emptyDirPage : XML := XML.elem "TimeSeriesIndex" none []

/-- One-record directory page, shared by several witnesses. -/
def oneRecordPage : XML :=
  XML.elem "TimeSeriesIndex" none
    [XML.elem "Series" none
      [XML.elem "TableTitle" (some "TABLES 1 and 2. CPI") [],
       XML.elem "TableURL" (some "https://example.org/640101.xlsx") []]]

/-- The record and table-info map extracted from `oneRecordPage`. -/
def wRec : ABSSeries :=
  [("TableTitle", "TABLES 1 and 2. CPI"), ("TableURL", "https://example.org/640101.xlsx")]

def wTi : List (String × String) :=
  [("TABLES 1 and 2. CPI", "https://example.org/640101.xlsx")]

/-- Page whose single record has a child with no text, for the claim C5
    witness. -/
def badChildPage : XML :=
  XML.elem "TimeSeriesIndex" none
    [XML.elem "Series" none [XML.elem "TableTitle" none []]]

/-! ### Table materializer (ABSQuery._process_dataframes and helpers) -/

/-- Cell values as relevant to `_remove_ABS_headers` (abs_query.py:337): the
    only inspection the code performs is `isinstance(e, datetime.datetime)`,
    so cells are classified as datetimes (with a payload) or other values. -/
inductive Cell where
  | date (n : Nat)
  | str (s : String)
  | num (n : Int)
  | blank
deriving DecidableEq

def Cell.isDate : Cell → Bool
  | Cell.date _ => true
  | _ => false

/-- Model of a `pandas.DataFrame`: column labels and rows of cells. -/
structure DataFrame where
  cols : List String
  rows : List (List Cell)
deriving DecidableEq

/-- Index of the column labelled "Date". -/
def dateIdx (cols : List String) : Nat := cols.findIdx (fun c => c == "Date")

/-- Number of columns labelled "Date" (`df['Date']` returns a Series exactly
    when this is 1). -/
def countDate (cols : List String) : Nat := cols.countP (fun c => c == "Date")

/-- `ABSQuery._rename_cols` (abs_query.py:326-329): pandas `rename` maps
    every column labelled "Unnamed: 0" to "Date" and touches nothing else. -/
def rename_cols (df : DataFrame) : DataFrame :=
  { df with cols := df.cols.map (fun c => if c = "Unnamed: 0" then "Date" else c) }

/-- `ABSQuery._remove_ABS_headers` (abs_query.py:331-340): `df['Date']`
    raises KeyError when no column is labelled "Date"; with several "Date"
    columns it returns a DataFrame, not a Series, so the guarded branch
    raises the "Can't find renamed date_col" error (the spec's
    MissingDateColumn); with exactly one, rows whose Date cell is not a
    datetime are dropped. -/
def remove_ABS_headers (df : DataFrame) : Except QErr DataFrame :=
  match countDate df.cols with
  | 0 => Except.error (QErr.keyError "Date")
  | 1 =>
    Except.ok { df with rows := df.rows.filter (fun r =>
      match r.get? (dateIdx df.cols) with
      | some c => c.isDate
      | none => false) }
  | _ + 2 => Except.error QErr.missingDateColumn

/-- `ABSQuery._format_ABS_df` (abs_query.py:317-324). -/
def format_ABS_df (df : DataFrame) : Except QErr DataFrame :=
  remove_ABS_headers (rename_cols df)

/-- pandas `pd.merge(x, y, on='Date')`, inner join: the result's columns are
    x's (overlapping non-key labels suffixed "_x") followed by y's minus the
    key column (suffixed "_y" on overlap); its rows pair each x row with
    every y row carrying an equal Date cell, in left-major order (pandas
    preserves the order of the left keys for how='inner'). -/
def merge (x y : DataFrame) : DataFrame :=
  { cols :=
      (x.cols.map (fun c =>
        if c ≠ "Date" ∧ c ∈ y.cols.eraseIdx (dateIdx y.cols) then c ++ "_x" else c))
      ++ ((y.cols.eraseIdx (dateIdx y.cols)).map (fun c =>
        if c ≠ "Date" ∧ c ∈ x.cols then c ++ "_y" else c)),
    rows := x.rows.flatMap (fun rx =>
      (y.rows.filter (fun ry =>
        decide (rx.get? (dateIdx x.cols) = ry.get? (dateIdx y.cols)))).map
        (fun ry => rx ++ ry.eraseIdx (dateIdx y.cols))) }

/-- Fail-fast formatting of every kept sheet (the list comprehension at
    abs_query.py:313). -/
def formatAll : List DataFrame → Except QErr (List DataFrame)
  | [] => Except.ok []
  | df :: rest =>
    match format_ABS_df df with
    | Except.error q => Except.error q
    | Except.ok f =>
      match formatAll rest with
      | Except.error q => Except.error q
      | Except.ok fs => Except.ok (f :: fs)

/-- `ABSQuery._process_dataframes` (abs_query.py:304-315): a decoded workbook
    is a list of (sheet name, decoded frame) in workbook order; sheets whose
    name contains "Data" are kept, cleaned, and folded with `pd.merge` on
    "Date"; `reduce` over an empty sheet list raises (the spec's
    NoDataSheets). -/
def process_dataframes (wb : List (String × DataFrame)) : Except QErr DataFrame :=
  match formatAll ((wb.filter (fun p => strContains p.1 "Data")).map Prod.snd) with
  | Except.error q => Except.error q
  | Except.ok [] => Except.error QErr.noDataSheets
  | Except.ok (f :: rest) => Except.ok (rest.foldl merge f)

/-- Key (Date cell) of one row of a frame. -/
def keyAt (df : DataFrame) (r : List Cell) : Option Cell := r.get? (dateIdx df.cols)

/-- The Date column of a frame, as the list of its rows' keys. -/
def datesOf (df : DataFrame) : List (Option Cell) := df.rows.map (keyAt df)

/-- The row of a frame carrying a given Date key (unique when `datesOf` is
    duplicate-free). -/
def rowAt (df : DataFrame) (d : Option Cell) : List Cell :=
  (df.rows.find? (fun r => decide (keyAt df r = d))).getD []

/-- Claim C2's description of the merged table, from the spec's words: for
    the kept-and-cleaned sheets f :: rest, one row per Date value of f common
    to every other sheet — f's row for that date followed by each other
    sheet's row with its Date cell removed — and f's columns followed by
    every other sheet's columns minus its Date column. -/
def joinSpec (f : DataFrame) (rest : List DataFrame) : DataFrame :=
  { cols := f.cols ++ (rest.map (fun g => g.cols.eraseIdx (dateIdx g.cols))).flatten,
    rows := ((datesOf f).filter (fun d => rest.all (fun g => decide (d ∈ datesOf g)))).map
      (fun d => rowAt f d ++
        (rest.map (fun g => (rowAt g d).eraseIdx (dateIdx g.cols))).flatten) }

/-- Sheet with two rows sharing one Date value, for the C2 counterexample. -/
def dupDateSheet : DataFrame :=
  { cols := ["Unnamed: 0", "x"],
    rows := [[Cell.date 0, Cell.num 1], [Cell.date 0, Cell.num 2]] }

/-- The table produced from the workbook [("Data1", dupDateSheet)]. -/
def dupMerged : DataFrame :=
  { cols := ["Date", "x"],
    rows := [[Cell.date 0, Cell.num 1], [Cell.date 0, Cell.num 2]] }

/-- Sheet that already has a single "Date" column and no "Unnamed: 0"
    placeholder, for the C8 counterexample. -/
def plainDateSheet : DataFrame :=
  { cols := ["Date", "x"], rows := [[Cell.date 0, Cell.num 1]] }

/-- Sheet carrying both the placeholder and an existing "Date" column, for
    the C8 witness. -/
def twoDateSheet : DataFrame :=
  { cols := ["Unnamed: 0", "Date"], rows := [[Cell.date 0, Cell.date 1]] }

/-- Two-sheet workbook fixture for the claim C2 witness. -/
def c2sheet1 : DataFrame :=
  { cols := ["Unnamed: 0", "A"],
    rows := [[Cell.date 1, Cell.num 10], [Cell.str "hdr", Cell.blank],
             [Cell.date 2, Cell.num 20]] }

def c2sheet2 : DataFrame :=
  { cols := ["Unnamed: 0", "B"],
    rows := [[Cell.str "hdr2", Cell.blank], [Cell.date 2, Cell.num 200],
             [Cell.date 3, Cell.num 300]] }

/-- The cleaned forms of the two C2 witness sheets. -/
def c2f1 : DataFrame :=
  { cols := ["Date", "A"],
    rows := [[Cell.date 1, Cell.num 10], [Cell.date 2, Cell.num 20]] }

def c2f2 : DataFrame :=
  { cols := ["Date", "B"],
    rows := [[Cell.date 2, Cell.num 200], [Cell.date 3, Cell.num 300]] }

/-- A metadata-only frame for the C7 witness workbook. -/
def indexSheet : DataFrame := { cols := ["Info"], rows := [[Cell.str "notes"]] }

/-! ### Theorems -/

theorem str_append_ne_empty (a b : String) (h : a.data ≠ []) : a ++ b ≠ "" := by
  intro hc
  have hd := congrArg String.data hc
  simp only [String.data_append] at hd
  exact h (List.append_eq_nil.mp hd).1

/-- Claim C4 counterexample, two supplied catalogue-number strings that do
    not end in ".0" and yet do not fail with InvalidCatalogueNumber: the
    empty string fails with MissingIdentifier (the constructor treats a falsy
    catno as absent, also contradicting the claimed "exactly when"), and a
    string ending ".0" plus a trailing newline constructs successfully,
    because re.search's `$` also matches before a trailing newline. -/
theorem c4_counterexample :
    endsWithDot0 "" = false
    ∧ absQueryInit (some "") none = Except.error QErr.missingIdentifier
    ∧ QErr.missingIdentifier ≠ QErr.invalidCatNo
    ∧ decide (".0".data <:+ "6401.0\n".data) = false
    ∧ absQueryInit (some "6401.0\n") none = Except.ok (ABSId.catNo "6401.0\n") := by
  refine ⟨rfl, rfl, by decide, by decide, rfl⟩

/-- Claim C4 (amended): with "supplied" read as supplied and non-empty
    (Python truthiness) and "ends in .0" read as `re.search(r"\.0$")`
    success — the string ends with ".0" or with ".0" plus one trailing
    newline — construction succeeds with the catalogue-number variant for
    every non-empty catalogue-number string so suffixed (regardless of any
    series id, which it takes precedence over), fails with
    InvalidCatalogueNumber for every non-empty catalogue-number string ending
    neither in ".0" nor in ".0\n", and fails with MissingIdentifier exactly
    when neither a non-empty catalogue number nor a non-empty series id is
    supplied. -/
theorem c4_identifier_validation (catno seriesID : Option String) :
    (∀ c, catno = some c → c ≠ "" → endsWithDot0 c = true →
      absQueryInit catno seriesID = Except.ok (ABSId.catNo c))
    ∧ (∀ c, catno = some c → c ≠ "" → endsWithDot0 c = false →
      absQueryInit catno seriesID = Except.error QErr.invalidCatNo)
    ∧ (∀ s, catno = none ∨ catno = some "" → seriesID = some s → s ≠ "" →
      absQueryInit catno seriesID = Except.ok (ABSId.seriesID s))
    ∧ (absQueryInit catno seriesID = Except.error QErr.missingIdentifier ↔
      truthyStr catno = false ∧ truthyStr seriesID = false) := by
  refine ⟨?_, ?_, ?_, ?_⟩
  · intro c hc hne hsuf
    subst hc
    simp [absQueryInit, truthyStr, hne, hsuf]
  · intro c hc hne hsuf
    subst hc
    simp [absQueryInit, truthyStr, hne, hsuf]
  · intro s hcat hs hne
    subst hs
    rcases hcat with h | h <;> subst h <;> simp [absQueryInit, truthyStr, hne]
  · constructor
    · intro h
      by_contra hcon
      rcases Decidable.not_and_iff_or_not.mp hcon with hc | hs
      · have hc' : truthyStr catno = true := by
          cases htc : truthyStr catno
          · exact absurd htc hc
          · rfl
        unfold absQueryInit at h
        rw [hc'] at h
        simp only [if_true] at h
        by_cases hsuf : endsWithDot0 (catno.getD "") = true <;> simp [hsuf] at h
      · have hs' : truthyStr seriesID = true := by
          cases hts : truthyStr seriesID
          · exact absurd hts hs
          · rfl
        unfold absQueryInit at h
        by_cases hc2 : truthyStr catno = true
        · rw [hc2] at h
          simp only [if_true] at h
          by_cases hsuf : endsWithDot0 (catno.getD "") = true <;> simp [hsuf] at h
        · have : truthyStr catno = false := by
            cases htc : truthyStr catno
            · rfl
            · exact absurd htc hc2
          rw [this] at h
          simp [hs'] at h
    · rintro ⟨hc, hs⟩
      simp [absQueryInit, hc, hs]

/-- Claim C4 witness: a valid catalogue number wins over a series id, a
    newline-suffixed one is accepted too, and supplying neither value fails
    with MissingIdentifier; a plain non-matching string fails with
    InvalidCatalogueNumber. -/
theorem c4_witness :
    absQueryInit (some "6401.0") (some "A2325846C") = Except.ok (ABSId.catNo "6401.0")
    ∧ absQueryInit (some "6401.0\n") none = Except.ok (ABSId.catNo "6401.0\n")
    ∧ absQueryInit (some "4349") none = Except.error QErr.invalidCatNo
    ∧ absQueryInit none none = Except.error QErr.missingIdentifier := by
  refine ⟨(c4_identifier_validation (some "6401.0") (some "A2325846C")).1 "6401.0" rfl
      (by decide) (by decide),
    (c4_identifier_validation (some "6401.0\n") none).1 "6401.0\n" rfl
      (by decide) (by decide),
    (c4_identifier_validation (some "4349") none).2.1 "4349" rfl
      (by decide) (by decide),
    (c4_identifier_validation none none).2.2.2.mpr (by decide)⟩

/-- Claim C9: for every identifier, optional table title and optional page
    number, `construct_query` returns the base endpoint followed by the
    present parameters joined in the fixed order (table-title filter, page
    number, catalogue-number-or-series-id), omitting every parameter whose
    value is absent or zero; being a pure function of its inputs, the same
    inputs always produce the same URL string. -/
theorem c9_build_query (i : ABSId) (table_title : Option String) (pg : Option Int) :
    construct_query i table_title pg = buildQuerySpec i table_title pg := by
  have h1 : ∀ t : String, ("ttitle=" ++ t) ≠ "" :=
    fun t => str_append_ne_empty _ _ (by decide)
  have h2 : ∀ p : Int, ("pg=" ++ toString p) ≠ "" :=
    fun p => str_append_ne_empty _ _ (by decide)
  have key : ∀ idp : String, idp ≠ "" →
      List.filter (fun e => decide (e ≠ ""))
        (((if truthyStr table_title = true then ["ttitle=" ++ table_title.getD ""] else []) ++
          (if truthyInt pg = true then ["pg=" ++ toString (pg.getD 0)] else [])) ++ [idp]) =
      (table_title.bind fun t => if t = "" then none else some ("ttitle=" ++ t)).toList ++
        ((pg.bind fun p => if p = 0 then none else some ("pg=" ++ toString p)).toList ++ [idp]) := by
    intro idp hidp
    cases table_title with
    | none =>
      cases pg with
      | none => simp [truthyStr, truthyInt, hidp]
      | some p =>
        by_cases hp : p = 0
        · subst hp
          simp [truthyStr, truthyInt, hidp]
        · simp [truthyStr, truthyInt, hidp, hp, h2]
    | some t =>
      by_cases ht : t = ""
      · subst ht
        cases pg with
        | none => simp [truthyStr, truthyInt, hidp]
        | some p =>
          by_cases hp : p = 0
          · subst hp
            simp [truthyStr, truthyInt, hidp]
          · simp [truthyStr, truthyInt, hidp, hp, h2]
      · cases pg with
        | none => simp [truthyStr, truthyInt, hidp, ht, h1]
        | some p =>
          by_cases hp : p = 0
          · subst hp
            simp [truthyStr, truthyInt, hidp, ht, h1]
          · simp [truthyStr, truthyInt, hidp, ht, hp, h1, h2]
  cases i with
  | catNo c =>
    have := key ("catno=" ++ c) (str_append_ne_empty _ _ (by decide))
    simp only [construct_query, buildQuerySpec]
    rw [this, List.append_assoc]
  | seriesID s =>
    have := key ("sid=" ++ s) (str_append_ne_empty _ _ (by decide))
    simp only [construct_query, buildQuerySpec]
    rw [this, List.append_assoc]

theorem iterL_append (tag : String) (cs ds : List XML) :
    XML.iterL (cs ++ ds) tag = XML.iterL cs tag ++ XML.iterL ds tag := by
  induction cs with
  | nil => simp [XML.iterL]
  | cons c cs ih => simp [XML.iterL, ih]

theorem iterE_extend (x : XML) (es : List XML) (tag : String) (h : x.tag ≠ tag) :
    XML.iterE (x.extend es) tag = XML.iterE x tag ++ XML.iterL es tag := by
  cases x with
  | elem t txt cs =>
    simp only [XML.tag] at h
    simp [XML.extend, XML.tag, XML.text, XML.children, XML.iterE, if_neg h, iterL_append]

theorem iterL_map (tag : String) (g : Nat → XML) (ks : List Nat) :
    XML.iterL (ks.map g) tag = (ks.map (fun k => XML.iterE (g k) tag)).flatten := by
  induction ks with
  | nil => simp [XML.iterL]
  | cons k ks ih => simp [XML.iterL, ih]

theorem recordsOfPage_eq (x : XML) :
    recordsOfPage x = collectSeries (XML.iterE x "Series") := rfl

theorem collectSeries_append (l1 l2 : List XML) :
    collectSeries (l1 ++ l2) =
      match collectSeries l1 with
      | Except.error q => Except.error q
      | Except.ok r1 =>
        match collectSeries l2 with
        | Except.error q => Except.error q
        | Except.ok r2 => Except.ok (r1 ++ r2) := by
  induction l1 with
  | nil =>
    simp only [List.nil_append, collectSeries]
    cases collectSeries l2 with
    | error q => rfl
    | ok r2 => simp
  | cons e l ih =>
    have hc : collectSeries ((e :: l) ++ l2) =
        match seriesFromElem e with
        | Except.error q => Except.error q
        | Except.ok d =>
          match collectSeries (l ++ l2) with
          | Except.error q => Except.error q
          | Except.ok ds => Except.ok (d :: ds) := rfl
    rw [hc, ih]
    simp only [collectSeries]
    cases seriesFromElem e with
    | error q => rfl
    | ok d =>
      cases collectSeries l with
      | error q => rfl
      | ok r1 =>
        cases collectSeries l2 with
        | error q => rfl
        | ok r2 => simp

theorem collectSeries_flatten (getPage : Nat → XML) (ks : List Nat) :
    collectSeries ((ks.map (fun k => XML.iterE (getPage k) "Series")).flatten) =
      match pagesRecords getPage ks with
      | Except.error q => Except.error q
      | Except.ok per => Except.ok per.flatten := by
  induction ks with
  | nil => simp [pagesRecords, collectSeries]
  | cons k ks ih =>
    simp only [List.map_cons, List.flatten_cons, pagesRecords]
    rw [collectSeries_append, ← recordsOfPage_eq, ih]
    cases recordsOfPage (getPage k) with
    | error q => rfl
    | ok r =>
      cases pagesRecords getPage ks with
      | error q => rfl
      | ok rs => simp

/-- Claim C1: if the page-1 directory response has no (truthy, parseable)
    page-count field or a page-count of at most 1, `fetchCatalogue` performs
    exactly one page fetch and returns exactly page 1's records in original
    order; if the page-count is n > 1, it additionally fetches pages 2..n and
    returns the concatenation of the pages' records in ascending page order,
    each page's internal record order preserved. The page-1 root is required
    not to be tagged Series itself (a directory root is a container of
    records, not a record). -/
theorem c1_fetch_pagination (getPage : Nat → XML) (hroot : (getPage 1).tag ≠ "Series") :
    ((pageCountView (getPage 1) = some PageCountView.absent ∨
        (∃ n : Int, pageCountView (getPage 1) = some (PageCountView.count n) ∧ n ≤ 1)) →
      fetchCatalogue getPage =
        (match recordsOfPage (getPage 1) with
         | Except.error q => Except.error q
         | Except.ok recs => Except.ok (recs, [1])))
    ∧ (∀ n : Int, 1 < n → pageCountView (getPage 1) = some (PageCountView.count n) →
      fetchCatalogue getPage =
        (match pagesRecords getPage (List.range' 1 n.toNat) with
         | Except.error q => Except.error q
         | Except.ok per => Except.ok (per.flatten, List.range' 1 n.toNat))) := by
  constructor
  · intro h
    have hget : get_timeseries_dict_xml getPage = Except.ok (getPage 1, [1]) := by
      cases hf : (getPage 1).find "NumPages" with
      | none => simp [get_timeseries_dict_xml, hf]
      | some e =>
        cases ht : e.text with
        | none => simp [get_timeseries_dict_xml, hf, ht]
        | some s =>
          by_cases hs : s = ""
          · simp [get_timeseries_dict_xml, hf, ht, hs]
          · cases hpy : pyInt s with
            | none =>
              simp only [pageCountView, hf, ht, if_neg hs, hpy] at h
              rcases h with h | ⟨n, hn, _⟩
              · simp at h
              · simp at hn
            | some m =>
              simp only [pageCountView, hf, ht, if_neg hs, hpy] at h
              rcases h with h | ⟨n, hn, hle⟩
              · simp at h
              · simp only [Option.some.injEq, PageCountView.count.injEq] at hn
                subst hn
                simp only [get_timeseries_dict_xml, hf, ht, if_neg hs, hpy]
                rw [if_neg (by omega)]
    simp only [fetchCatalogue, hget, recordsOfPage_eq]
  · intro n hn hcnt
    have hget : get_timeseries_dict_xml getPage =
        Except.ok ((getPage 1).extend ((List.range' 2 (n.toNat - 1)).map getPage),
          1 :: List.range' 2 (n.toNat - 1)) := by
      cases hf : (getPage 1).find "NumPages" with
      | none => simp [pageCountView, hf] at hcnt
      | some e =>
        cases ht : e.text with
        | none => simp [pageCountView, hf, ht] at hcnt
        | some s =>
          by_cases hs : s = ""
          · simp [pageCountView, hf, ht, hs] at hcnt
          · cases hpy : pyInt s with
            | none => simp [pageCountView, hf, ht, hs, hpy] at hcnt
            | some m =>
              simp only [pageCountView, hf, ht, if_neg hs, hpy] at hcnt
              simp only [Option.some.injEq, PageCountView.count.injEq] at hcnt
              subst hcnt
              simp only [get_timeseries_dict_xml, hf, ht, if_neg hs, hpy]
              rw [if_pos hn]
    have hrange : List.range' 1 n.toNat = 1 :: List.range' 2 (n.toNat - 1) := by
      obtain ⟨m, hm⟩ : ∃ m, n.toNat = m + 1 := ⟨n.toNat - 1, by omega⟩
      rw [hm]
      simp [List.range'_succ]
    simp only [fetchCatalogue, hget]
    rw [iterE_extend _ _ _ hroot, iterL_map, collectSeries_append, ← recordsOfPage_eq,
      collectSeries_flatten, hrange]
    simp only [pagesRecords]
    cases recordsOfPage (getPage 1) with
    | error q => rfl
    | ok r1 =>
      cases pagesRecords getPage (List.range' 2 (n.toNat - 1)) with
      | error q => rfl
      | ok rs => simp

/-- Claim C1 witness: a concrete three-page directory; `fetchCatalogue`
    fetches pages 1, 2, 3 and returns their records in page order. -/
theorem c1_witness :
    (c1getPage 1).tag ≠ "Series"
    ∧ pageCountView (c1getPage 1) = some (PageCountView.count 3)
    ∧ fetchCatalogue c1getPage =
        (match pagesRecords c1getPage (List.range' 1 (3 : Int).toNat) with
         | Except.error q => Except.error q
         | Except.ok per => Except.ok (per.flatten, List.range' 1 (3 : Int).toNat))
    ∧ fetchCatalogue c1getPage =
        Except.ok ([[("TableTitle", "T1")], [("TableTitle", "T2")], [("TableTitle", "T3")]],
          [1, 2, 3]) :=
  ⟨by decide, by decide,
    (c1_fetch_pagination c1getPage (by decide)).2 3 (by decide) (by decide), by rfl⟩

theorem childrenToDict_err_shape : ∀ (cs : List XML) (acc : ABSSeries) (q : QErr),
    childrenToDict cs acc = Except.error q → ∃ t, q = QErr.malformedEntry t := by
  intro cs
  induction cs with
  | nil => intro acc q h; simp [childrenToDict] at h
  | cons c rest ih =>
    intro acc q h
    cases c with
    | elem t txt cs2 =>
      cases txt with
      | none =>
        simp only [childrenToDict] at h
        exact ⟨t, (Except.error.inj h).symm⟩
      | some str =>
        by_cases hs : str = ""
        · simp only [childrenToDict, if_pos hs] at h
          exact ⟨t, (Except.error.inj h).symm⟩
        · simp only [childrenToDict, if_neg hs] at h
          exact ih _ _ h

theorem childrenToDict_bad : ∀ (cs : List XML) (acc : ABSSeries),
    (∃ c ∈ cs, truthyStr c.text = false) →
    ∃ t, childrenToDict cs acc = Except.error (QErr.malformedEntry t) := by
  intro cs
  induction cs with
  | nil => intro acc h; simp at h
  | cons c rest ih =>
    intro acc h
    cases c with
    | elem t txt cs2 =>
      cases txt with
      | none => exact ⟨t, by simp [childrenToDict]⟩
      | some str =>
        by_cases hs : str = ""
        · exact ⟨t, by simp [childrenToDict, hs]⟩
        · have hrest : ∃ c ∈ rest, truthyStr c.text = false := by
            rcases h with ⟨c, hc, hb⟩
            rcases List.mem_cons.mp hc with rfl | hc2
            · simp [XML.text, truthyStr, hs] at hb
            · exact ⟨c, hc2, hb⟩
          obtain ⟨t2, ht2⟩ := ih (dictInsert acc t str) hrest
          exact ⟨t2, by simp [childrenToDict, hs, ht2]⟩

theorem collectSeries_err_shape : ∀ (l : List XML) (q : QErr),
    collectSeries l = Except.error q → ∃ t, q = QErr.malformedEntry t := by
  intro l
  induction l with
  | nil => intro q h; simp [collectSeries] at h
  | cons e rest ih =>
    intro q h
    cases hse : seriesFromElem e with
    | error q2 =>
      simp only [collectSeries, hse] at h
      obtain ⟨t, ht⟩ := childrenToDict_err_shape e.children [] q2 hse
      exact ⟨t, by rw [← Except.error.inj h, ht]⟩
    | ok d =>
      cases hcr : collectSeries rest with
      | error q2 =>
        simp only [collectSeries, hse, hcr] at h
        obtain ⟨t, ht⟩ := ih q2 hcr
        exact ⟨t, by rw [← Except.error.inj h, ht]⟩
      | ok ds => simp [collectSeries, hse, hcr] at h

theorem collectSeries_bad : ∀ l : List XML,
    (∃ e ∈ l, ∃ c ∈ e.children, truthyStr c.text = false) →
    ∃ t, collectSeries l = Except.error (QErr.malformedEntry t) := by
  intro l
  induction l with
  | nil => intro h; simp at h
  | cons e rest ih =>
    intro h
    cases hse : seriesFromElem e with
    | error q =>
      obtain ⟨t, ht⟩ := childrenToDict_err_shape _ _ _ hse
      exact ⟨t, by simp [collectSeries, hse, ht]⟩
    | ok d =>
      have hrest : ∃ e2 ∈ rest, ∃ c ∈ e2.children, truthyStr c.text = false := by
        rcases h with ⟨e2, he2, hc⟩
        rcases List.mem_cons.mp he2 with rfl | he3
        · obtain ⟨t, ht⟩ := childrenToDict_bad e2.children [] hc
          have h2 : seriesFromElem e2 = Except.error (QErr.malformedEntry t) := ht
          rw [hse] at h2
          exact absurd h2 (by simp)
        · exact ⟨e2, he3, hc⟩
      obtain ⟨t, ht⟩ := ih hrest
      exact ⟨t, by simp [collectSeries, hse, ht]⟩

/-- Claim C5: if any record in any fetched directory page (that is, any
    Series element of the stitched document) has a child field with no text
    content, the fetch path of `_get_serieslist` fails with
    MalformedDirectoryEntry immediately: no partial record set is returned
    and the session's cached snapshot stays unset. -/
theorem c5_malformed_entry (getPage : Nat → XML) (s : Session)
    (hinit : s.series_list = none)
    (xml : XML) (log : List Nat)
    (hxml : get_timeseries_dict_xml getPage = Except.ok (xml, log))
    (hbad : ∃ e ∈ XML.iterE xml "Series", ∃ c ∈ e.children, truthyStr c.text = false) :
    ∃ t, get_serieslist_s getPage s = (Except.error (QErr.malformedEntry t), s, 1) := by
  obtain ⟨t, ht⟩ := collectSeries_bad _ hbad
  have hfetch : fetchRecords getPage = Except.error (QErr.malformedEntry t) := by
    simp [fetchRecords, fetchCatalogue, hxml, ht]
  exact ⟨t, by simp [get_serieslist_s, hinit, truthyCache, hfetch]⟩

/-- Claim C5 witness: a concrete page whose record has a text-less child. -/
theorem c5_witness :
    ∃ t, get_serieslist_s (fun _ => badChildPage) (initSession (ABSId.catNo "6401.0") none) =
      (Except.error (QErr.malformedEntry t), initSession (ABSId.catNo "6401.0") none, 1) :=
  c5_malformed_entry (fun _ => badChildPage) (initSession (ABSId.catNo "6401.0") none) rfl
    badChildPage [1] (by rfl) (by decide)

theorem get_timeseries_err_shape (getPage : Nat → XML) (q : QErr)
    (h : get_timeseries_dict_xml getPage = Except.error q) : ∃ s, q = QErr.valueError s := by
  cases hf : (getPage 1).find "NumPages" with
  | none => simp [get_timeseries_dict_xml, hf] at h
  | some e =>
    cases ht : e.text with
    | none => simp [get_timeseries_dict_xml, hf, ht] at h
    | some s =>
      by_cases hs : s = ""
      · simp [get_timeseries_dict_xml, hf, ht, hs] at h
      · cases hpy : pyInt s with
        | none =>
          simp only [get_timeseries_dict_xml, hf, ht, if_neg hs, hpy] at h
          exact ⟨s, (Except.error.inj h).symm⟩
        | some m =>
          by_cases hm : 1 < m
          · simp [get_timeseries_dict_xml, hf, ht, hs, hpy, hm] at h
          · simp [get_timeseries_dict_xml, hf, ht, hs, hpy, hm] at h

theorem fetchRecords_err_shape (getPage : Nat → XML) (q : QErr)
    (h : fetchRecords getPage = Except.error q) :
    (∃ s, q = QErr.valueError s) ∨ (∃ t, q = QErr.malformedEntry t) := by
  cases hg : get_timeseries_dict_xml getPage with
  | error q2 =>
    have h2 : q2 = q := by
      simp only [fetchRecords, fetchCatalogue, hg] at h
      exact Except.error.inj h
    obtain ⟨s, hs⟩ := get_timeseries_err_shape getPage q2 hg
    exact Or.inl ⟨s, by rw [← h2, hs]⟩
  | ok p =>
    obtain ⟨xml, log⟩ := p
    cases hc : collectSeries (XML.iterE xml "Series") with
    | error q2 =>
      have h2 : q2 = q := by
        simp only [fetchRecords, fetchCatalogue, hg, hc] at h
        exact Except.error.inj h
      obtain ⟨t, ht⟩ := collectSeries_err_shape _ q2 hc
      exact Or.inr ⟨t, by rw [← h2, ht]⟩
    | ok recs => simp [fetchRecords, fetchCatalogue, hg, hc] at h

theorem dictInsert_ne_nil (d : List (String × String)) (k v : String) :
    dictInsert d k v ≠ [] := by
  unfold dictInsert
  by_cases hk : d.any (fun p => p.1 == k)
  · rw [if_pos hk]
    cases d with
    | nil => simp at hk
    | cons p rest => simp
  · rw [if_neg hk]
    simp

theorem buildTableInfoAux_ne_nil : ∀ (sl : List ABSSeries) (acc ti : List (String × String)),
    acc ≠ [] → buildTableInfoAux sl acc = Except.ok ti → ti ≠ [] := by
  intro sl
  induction sl with
  | nil =>
    intro acc ti hacc h
    simp only [buildTableInfoAux] at h
    rw [← Except.ok.inj h]
    exact hacc
  | cons e rest ih =>
    intro acc ti hacc h
    cases h1 : dictGet e "TableTitle" with
    | none => simp [buildTableInfoAux, h1] at h
    | some t =>
      cases h2 : dictGet e "TableURL" with
      | none => simp [buildTableInfoAux, h1, h2] at h
      | some u =>
        simp only [buildTableInfoAux, h1, h2] at h
        exact ih _ _ (dictInsert_ne_nil acc t u) h

theorem buildTableInfo_ne_nil (sl : List ABSSeries) (ti : List (String × String))
    (hne : sl ≠ []) (h : buildTableInfo sl = Except.ok ti) : ti ≠ [] := by
  cases sl with
  | nil => exact absurd rfl hne
  | cons e rest =>
    unfold buildTableInfo at h
    cases h1 : dictGet e "TableTitle" with
    | none => simp [buildTableInfoAux, h1] at h
    | some t =>
      cases h2 : dictGet e "TableURL" with
      | none => simp [buildTableInfoAux, h1, h2] at h
      | some u =>
        simp only [buildTableInfoAux, h1, h2] at h
        exact buildTableInfoAux_ne_nil rest _ ti (dictInsert_ne_nil [] t u) h

theorem buildTableInfoAux_err_shape : ∀ (sl : List ABSSeries) (acc : List (String × String))
    (q : QErr), buildTableInfoAux sl acc = Except.error q →
    q = QErr.keyError "TableTitle" ∨ q = QErr.keyError "TableURL" := by
  intro sl
  induction sl with
  | nil => intro acc q h; simp [buildTableInfoAux] at h
  | cons e rest ih =>
    intro acc q h
    cases h1 : dictGet e "TableTitle" with
    | none =>
      simp only [buildTableInfoAux, h1] at h
      exact Or.inl (Except.error.inj h).symm
    | some t =>
      cases h2 : dictGet e "TableURL" with
      | none =>
        simp only [buildTableInfoAux, h1, h2] at h
        exact Or.inr (Except.error.inj h).symm
      | some u =>
        simp only [buildTableInfoAux, h1, h2] at h
        exact ih _ _ h

/-- Claim C6: on a fresh session, `get_table_links` raises EmptyCatalogue if
    and only if the catalogue fetch returns zero records; and when the fetch
    returns at least one record whose indexing succeeds but no table title
    contains the given substring (case-sensitive), it returns an empty
    mapping and no error. -/
theorem c6_empty_catalogue (getPage : Nat → XML) (i : ABSId) (tt0 : Option String)
    (table_title : String) :
    ((get_table_links_s getPage table_title (initSession i tt0)).1 =
        Except.error QErr.emptyCatalogue ↔ fetchRecords getPage = Except.ok [])
    ∧ (∀ recs ti, fetchRecords getPage = Except.ok recs → recs ≠ [] →
        buildTableInfo recs = Except.ok ti →
        (∀ p ∈ ti, strContains p.1 table_title = false) →
        (get_table_links_s getPage table_title (initSession i tt0)).1 = Except.ok []) := by
  have hsl : get_serieslist_s getPage (initSession i tt0) =
      (match fetchRecords getPage with
       | Except.error q => (Except.error q, initSession i tt0, 1)
       | Except.ok recs =>
         (Except.ok recs, { initSession i tt0 with series_list := some recs }, 1)) := by
    simp [get_serieslist_s, initSession, truthyCache]
  cases hfr : fetchRecords getPage with
  | error q =>
    rw [hfr] at hsl
    have hq : q ≠ QErr.emptyCatalogue := by
      rcases fetchRecords_err_shape getPage q hfr with ⟨s, rfl⟩ | ⟨t, rfl⟩ <;> simp
    refine ⟨⟨fun h => ?_, fun h => absurd h (by simp)⟩, fun recs ti h => absurd h (by simp)⟩
    simp only [get_table_links_s, get_table_info_s, hsl] at h
    exact absurd (Except.error.inj h) hq
  | ok recs =>
    rw [hfr] at hsl
    cases recs with
    | nil =>
      have hres : (get_table_links_s getPage table_title (initSession i tt0)).1 =
          Except.error QErr.emptyCatalogue := by
        simp only [get_table_links_s, get_table_info_s, hsl]
        simp [initSession]
      refine ⟨⟨fun _ => rfl, fun _ => hres⟩, fun recs2 ti h hne => ?_⟩
      rw [← Except.ok.inj h] at hne
      exact absurd rfl hne
    | cons r rest =>
      cases hb : buildTableInfo (r :: rest) with
      | error q =>
        have hq : q ≠ QErr.emptyCatalogue := by
          rcases buildTableInfoAux_err_shape _ _ q hb with rfl | rfl <;> simp
        refine ⟨⟨fun h => ?_, fun h => absurd (Except.ok.inj h) (by simp)⟩,
          fun recs2 ti h hne hti hnm => ?_⟩
        · simp only [get_table_links_s, get_table_info_s, hsl] at h
          rw [if_pos ⟨by simp, by simp [initSession]⟩, hb] at h
          exact absurd (Except.error.inj h) hq
        · rw [← Except.ok.inj h, hb] at hti
          exact absurd hti (by simp)
      | ok ti =>
        have htine : ti ≠ [] := buildTableInfo_ne_nil _ ti (by simp) hb
        have hlinks : (get_table_links_s getPage table_title (initSession i tt0)).1 =
            Except.ok (ti.filter (fun p => strContains p.1 table_title)) := by
          simp only [get_table_links_s, get_table_info_s, hsl]
          rw [if_pos ⟨by simp, by simp [initSession]⟩, hb]
          simp [htine]
        refine ⟨⟨fun h => ?_, fun h => absurd (Except.ok.inj h) (by simp)⟩,
          fun recs2 ti2 h hne hti hnomatch => ?_⟩
        · rw [hlinks] at h
          exact absurd h (by simp)
        · rw [← Except.ok.inj h] at hti
          have hti2 : ti = ti2 := Except.ok.inj (hb.symm.trans hti)
          rw [hlinks]
          have hfil : ti.filter (fun p => strContains p.1 table_title) = [] :=
            List.filter_eq_nil_iff.mpr (by
              intro p hp
              have h2 := hnomatch p (by rw [← hti2]; exact hp)
              simp [h2])
          rw [hfil]

/-- Claim C6 witness: a one-record catalogue with a non-matching substring
    gives an empty mapping and no error; a zero-record catalogue gives
    EmptyCatalogue. -/
theorem c6_witness :
    (get_table_links_s (fun _ => oneRecordPage) "xyz"
        (initSession (ABSId.catNo "6401.0") none)).1 = Except.ok []
    ∧ (get_table_links_s (fun _ => emptyDirPage) "xyz"
        (initSession (ABSId.catNo "6401.0") none)).1 = Except.error QErr.emptyCatalogue :=
  ⟨(c6_empty_catalogue (fun _ => oneRecordPage) (ABSId.catNo "6401.0") none "xyz").2
      [wRec] wTi (by rfl) (by decide) (by rfl) (by decide),
   (c6_empty_catalogue (fun _ => emptyDirPage) (ABSId.catNo "6401.0") none "xyz").1.mpr
      (by rfl)⟩

/-- Claim C3 counterexample: on a catalogue with zero records the fetch is
    executed once per call, not once per session — two `get_table_names`
    calls on a fresh session run it twice, because `_get_serieslist` treats
    the cached empty list as unset (`if not self.series_list`). -/
theorem c3_counterexample :
    (runCalls (fun _ => emptyDirPage) [CatCall.names, CatCall.names]
      (initSession (ABSId.catNo "6401.0") none)).2 = 2 := by rfl

/-- Claim C3 (amended): provided the catalogue fetch succeeds with at least
    one record and the index build succeeds, the fetch is executed at most
    once per session: the first call (to get_table_names, get_table_links or
    get_dataframe) runs it once and caches the snapshot and the title-to-URL
    map on the session, and every subsequent call — any sequence, any
    substring — performs zero fetches, leaves the session unchanged, and
    answers from the cached map. -/
theorem c3_memoization (getPage : Nat → XML) (i : ABSId) (tt0 : Option String)
    (recs : List ABSSeries) (ti : List (String × String))
    (hrecs : fetchRecords getPage = Except.ok recs) (hne : recs ≠ [])
    (hti : buildTableInfo recs = Except.ok ti) :
    (∀ c0 : CatCall, runCall getPage c0 (initSession i tt0) =
      (cachedSession i tt0 recs ti, 1))
    ∧ (∀ c : CatCall, runCall getPage c (cachedSession i tt0 recs ti) =
      (cachedSession i tt0 recs ti, 0))
    ∧ (∀ cs : List CatCall, runCalls getPage cs (cachedSession i tt0 recs ti) =
      (cachedSession i tt0 recs ti, 0))
    ∧ (get_table_names_s getPage (cachedSession i tt0 recs ti)).1 =
      Except.ok (some (ti.map Prod.fst))
    ∧ (∀ t, (get_table_links_s getPage t (cachedSession i tt0 recs ti)).1 =
      Except.ok (ti.filter (fun p => strContains p.1 t))) := by
  have htine : ti ≠ [] := buildTableInfo_ne_nil recs ti hne hti
  have htc : truthyCache (some recs) = true := by
    cases recs with
    | nil => exact absurd rfl hne
    | cons a l => simp [truthyCache]
  have hfirst : get_table_info_s getPage (initSession i tt0) =
      (Except.ok ti, cachedSession i tt0 recs ti, 1) := by
    simp [get_table_info_s, get_serieslist_s, initSession, truthyCache, hrecs, hne, hti,
      cachedSession]
  have hstable : get_table_info_s getPage (cachedSession i tt0 recs ti) =
      (Except.ok ti, cachedSession i tt0 recs ti, 0) := by
    simp [get_table_info_s, get_serieslist_s, cachedSession, htc]
  have hone : ∀ c, runCall getPage c (cachedSession i tt0 recs ti) =
      (cachedSession i tt0 recs ti, 0) := by
    intro c
    cases c <;> simp [runCall, get_table_names_s, get_table_links_s, hstable, htine]
  refine ⟨?_, hone, ?_, ?_, ?_⟩
  · intro c0
    cases c0 <;> simp [runCall, get_table_names_s, get_table_links_s, hfirst, htine]
  · intro cs
    induction cs with
    | nil => rfl
    | cons c cs ih => simp [runCalls, hone, ih]
  · simp [get_table_names_s, hstable, htine]
  · intro t
    simp [get_table_links_s, hstable, htine]

/-- Claim C3 witness: a one-record catalogue; the first call fetches once and
    caches, a subsequent sequence of calls fetches zero times. -/
theorem c3_witness :
    runCall (fun _ => oneRecordPage) CatCall.names (initSession (ABSId.catNo "6401.0") none) =
      (cachedSession (ABSId.catNo "6401.0") none [wRec] wTi, 1)
    ∧ runCalls (fun _ => oneRecordPage)
        [CatCall.names, CatCall.links "CPI", CatCall.dataframe "CPI"]
        (cachedSession (ABSId.catNo "6401.0") none [wRec] wTi) =
      (cachedSession (ABSId.catNo "6401.0") none [wRec] wTi, 0) :=
  ⟨(c3_memoization (fun _ => oneRecordPage) (ABSId.catNo "6401.0") none [wRec] wTi
      (by rfl) (by decide) (by rfl)).1 CatCall.names,
   (c3_memoization (fun _ => oneRecordPage) (ABSId.catNo "6401.0") none [wRec] wTi
      (by rfl) (by decide) (by rfl)).2.2.1
      [CatCall.names, CatCall.links "CPI", CatCall.dataframe "CPI"]⟩

theorem get_serieslist_table_info (getPage : Nat → XML) (s : Session) :
    ((get_serieslist_s getPage s).2.1).table_info = s.table_info := by
  unfold get_serieslist_s
  by_cases hc : truthyCache s.series_list = true
  · simp [hc]
  · rw [if_neg hc]
    cases hf : fetchRecords getPage <;> simp

theorem get_serieslist_err (getPage : Nat → XML) (s : Session) (q : QErr)
    (h : (get_serieslist_s getPage s).1 = Except.error q) :
    fetchRecords getPage = Except.error q := by
  unfold get_serieslist_s at h
  by_cases hc : truthyCache s.series_list = true
  · rw [if_pos hc] at h
    simp at h
  · rw [if_neg hc] at h
    cases hf : fetchRecords getPage with
    | error q2 =>
      rw [hf] at h
      simp at h
      rw [h]
    | ok recs =>
      rw [hf] at h
      simp at h

theorem c10_key (getPage : Nat → XML) (s : Session) (hs : tableInfoInv s) :
    (∀ ti, (get_table_info_s getPage s).1 = Except.ok ti → ti ≠ [])
    ∧ tableInfoInv (get_table_info_s getPage s).2.1
    ∧ (get_table_info_s getPage s).1 ≠ Except.error QErr.tableInfoUnset := by
  rcases hsl : get_serieslist_s getPage s with ⟨res, s1, n⟩
  have hs1ti : s1.table_info = s.table_info := by
    have h0 := get_serieslist_table_info getPage s
    rw [hsl] at h0
    exact h0
  have hs1 : tableInfoInv s1 := fun t ht => hs t (by rw [← hs1ti]; exact ht)
  cases res with
  | error q =>
    have herr : fetchRecords getPage = Except.error q := by
      apply get_serieslist_err getPage s
      rw [hsl]
    have hq : q ≠ QErr.tableInfoUnset := by
      rcases fetchRecords_err_shape getPage q herr with ⟨s2, rfl⟩ | ⟨t, rfl⟩ <;> simp
    refine ⟨?_, ?_, ?_⟩
    · intro ti h
      simp only [get_table_info_s, hsl] at h
      simp at h
    · simp only [get_table_info_s, hsl]
      exact hs1
    · simp only [get_table_info_s, hsl]
      simp [hq]
  | ok sl =>
    cases hti0 : s1.table_info with
    | some ti0 =>
      have hcond : ¬(sl ≠ [] ∧ s1.table_info = none) := by rw [hti0]; simp
      have hne0 : ti0 ≠ [] := hs1 ti0 hti0
      have hnn : s1.table_info ≠ none := by rw [hti0]; simp
      refine ⟨?_, ?_, ?_⟩
      · intro ti h
        simp only [get_table_info_s, hsl] at h
        rw [if_neg hcond, if_pos hnn] at h
        rw [hti0] at h
        simp at h
        rw [← h]
        exact hne0
      · simp only [get_table_info_s, hsl]
        rw [if_neg hcond, if_pos hnn]
        exact hs1
      · simp only [get_table_info_s, hsl]
        rw [if_neg hcond, if_pos hnn]
        simp
    | none =>
      by_cases hnil : sl = []
      · have hcond : ¬(sl ≠ [] ∧ s1.table_info = none) := by simp [hnil]
        have hnn : ¬(s1.table_info ≠ none) := by rw [hti0]; simp
        refine ⟨?_, ?_, ?_⟩
        · intro ti h
          simp only [get_table_info_s, hsl] at h
          rw [if_neg hcond, if_neg hnn] at h
          simp at h
        · simp only [get_table_info_s, hsl]
          rw [if_neg hcond, if_neg hnn]
          exact hs1
        · simp only [get_table_info_s, hsl]
          rw [if_neg hcond, if_neg hnn]
          simp
      · have hcond : sl ≠ [] ∧ s1.table_info = none := ⟨hnil, hti0⟩
        cases hb : buildTableInfo sl with
        | error q =>
          have hq : q ≠ QErr.tableInfoUnset := by
            rcases buildTableInfoAux_err_shape _ _ q hb with rfl | rfl <;> simp
          refine ⟨?_, ?_, ?_⟩
          · intro ti h
            simp only [get_table_info_s, hsl] at h
            rw [if_pos hcond, hb] at h
            simp at h
          · simp only [get_table_info_s, hsl]
            rw [if_pos hcond, hb]
            exact hs1
          · simp only [get_table_info_s, hsl]
            rw [if_pos hcond, hb]
            simp [hq]
        | ok ti =>
          have htine : ti ≠ [] := buildTableInfo_ne_nil sl ti hnil hb
          refine ⟨?_, ?_, ?_⟩
          · intro ti2 h
            simp only [get_table_info_s, hsl] at h
            rw [if_pos hcond, hb] at h
            simp at h
            rw [← h]
            exact htine
          · simp only [get_table_info_s, hsl]
            rw [if_pos hcond, hb]
            intro t2 ht2
            simp at ht2
            rw [← ht2]
            exact htine
          · simp only [get_table_info_s, hsl]
            rw [if_pos hcond, hb]
            simp

/-- Claim C10: the table-info cache, when set by a completed indexing, is
    never empty. Hence on every session satisfying the invariant (which holds
    initially and is preserved by every call), a successful `_get_table_info`
    yields a non-empty map, `get_table_names` never returns its declared
    None, and the error branch of `get_table_links` (the spec's "mapping
    falsy" branch) is unreachable. -/
theorem c10_index_nonempty (getPage : Nat → XML) :
    (∀ i tt0, tableInfoInv (initSession i tt0))
    ∧ (∀ s, tableInfoInv s → ∀ ti, (get_table_info_s getPage s).1 = Except.ok ti → ti ≠ [])
    ∧ (∀ s c, tableInfoInv s → tableInfoInv (runCall getPage c s).1)
    ∧ (∀ s, tableInfoInv s → (get_table_names_s getPage s).1 ≠ Except.ok none)
    ∧ (∀ s tt, tableInfoInv s →
        (get_table_links_s getPage tt s).1 ≠ Except.error QErr.tableInfoUnset) := by
  have hnames_sess : ∀ s, (get_table_names_s getPage s).2 = (get_table_info_s getPage s).2 := by
    intro s
    rcases h : get_table_info_s getPage s with ⟨res, s1, n⟩
    cases res <;> simp [get_table_names_s, h]
  have hlinks_sess : ∀ t s,
      (get_table_links_s getPage t s).2 = (get_table_info_s getPage s).2 := by
    intro t s
    rcases h : get_table_info_s getPage s with ⟨res, s1, n⟩
    cases res with
    | error q => simp [get_table_links_s, h]
    | ok ti =>
      simp only [get_table_links_s, h]
      split <;> rfl
  refine ⟨?_, ?_, ?_, ?_, ?_⟩
  · intro i tt0 ti h
    simp [initSession] at h
  · intro s hs
    exact (c10_key getPage s hs).1
  · intro s c hs
    have hpres := (c10_key getPage s hs).2.1
    cases c with
    | names =>
      simp only [runCall]
      rw [hnames_sess s]
      exact hpres
    | links t =>
      simp only [runCall]
      rw [hlinks_sess t s]
      exact hpres
    | dataframe t =>
      simp only [runCall]
      rw [hlinks_sess t s]
      exact hpres
  · intro s hs
    rcases h : get_table_info_s getPage s with ⟨res, s1, n⟩
    cases res with
    | error q => simp [get_table_names_s, h]
    | ok ti =>
      have hne : ti ≠ [] := by
        apply (c10_key getPage s hs).1
        rw [h]
      simp [get_table_names_s, h, hne]
  · intro s tt hs
    rcases h : get_table_info_s getPage s with ⟨res, s1, n⟩
    cases res with
    | error q =>
      have h3 := (c10_key getPage s hs).2.2
      rw [h] at h3
      simp only [get_table_links_s, h]
      simpa using h3
    | ok ti =>
      have hne : ti ≠ [] := by
        apply (c10_key getPage s hs).1
        rw [h]
      simp [get_table_links_s, h, hne]

/-- Claim C10 witness: on a fresh session over a one-record catalogue,
    `get_table_names` does not return None and `get_table_links` does not hit
    its unreachable error branch. -/
theorem c10_witness :
    tableInfoInv (initSession (ABSId.catNo "6401.0") none)
    ∧ (get_table_names_s (fun _ => oneRecordPage)
        (initSession (ABSId.catNo "6401.0") none)).1 ≠ Except.ok none
    ∧ (get_table_links_s (fun _ => oneRecordPage) "xyz"
        (initSession (ABSId.catNo "6401.0") none)).1 ≠ Except.error QErr.tableInfoUnset :=
  ⟨(c10_index_nonempty (fun _ => oneRecordPage)).1 (ABSId.catNo "6401.0") none,
   (c10_index_nonempty (fun _ => oneRecordPage)).2.2.2.1 _ (fun _ h => nomatch h),
   (c10_index_nonempty (fun _ => oneRecordPage)).2.2.2.2 _ "xyz" (fun _ h => nomatch h)⟩

/-- Claim C7: a workbook none of whose sheet names contains "Data" makes
    table materialization fail with NoDataSheets (concretely, the TypeError
    of `reduce` over the empty cleaned-sheet list). -/
theorem c7_no_data_sheets (wb : List (String × DataFrame))
    (h : ∀ p ∈ wb, strContains p.1 "Data" = false) :
    process_dataframes wb = Except.error QErr.noDataSheets := by
  have hfil : wb.filter (fun p => strContains p.1 "Data") = [] :=
    List.filter_eq_nil_iff.mpr (by intro p hp; simp [h p hp])
  simp [process_dataframes, hfil, formatAll]

/-- Claim C7 witness: a workbook holding only metadata sheets. -/
theorem c7_witness :
    process_dataframes [("Index", indexSheet), ("Contents", indexSheet)] =
      Except.error QErr.noDataSheets :=
  c7_no_data_sheets [("Index", indexSheet), ("Contents", indexSheet)] (by decide)

/-- Claim C8 counterexample: a kept data sheet in which the rename step finds
    no "Unnamed: 0" placeholder, but which already carries a single "Date"
    column, is processed without any error — the claim predicts a
    MissingDateColumn failure for it. -/
theorem c8_counterexample :
    "Unnamed: 0" ∉ plainDateSheet.cols
    ∧ format_ABS_df plainDateSheet = Except.ok plainDateSheet
    ∧ process_dataframes [("Data1", plainDateSheet)] = Except.ok plainDateSheet :=
  ⟨by decide, by rfl, by rfl⟩

/-- Claim C8 (amended): per-sheet cleaning fails with MissingDateColumn
    exactly when the sheet has at least two "Date"-labelled columns after the
    rename (e.g. an "Unnamed: 0" placeholder alongside a pre-existing "Date"
    column), and with a KeyError exactly when it has none; a sheet lacking
    the placeholder but already holding a single "Date" column is processed
    without error. -/
theorem c8_missing_date_column (df : DataFrame) :
    (format_ABS_df df = Except.error QErr.missingDateColumn ↔
      2 ≤ countDate (rename_cols df).cols)
    ∧ (format_ABS_df df = Except.error (QErr.keyError "Date") ↔
      countDate (rename_cols df).cols = 0) := by
  unfold format_ABS_df remove_ABS_headers
  cases hc : countDate (rename_cols df).cols with
  | zero => simp
  | succ n =>
    cases n with
    | zero => simp
    | succ m =>
      constructor
      · simp only [true_iff]
        omega
      · constructor
        · intro h
          simp at h
        · intro h
          omega

/-- Claim C8 witness: a sheet with the placeholder and an existing "Date"
    column has two Date columns after the rename, and cleaning fails with
    MissingDateColumn. -/
theorem c8_witness :
    2 ≤ countDate (rename_cols twoDateSheet).cols
    ∧ format_ABS_df twoDateSheet = Except.error QErr.missingDateColumn :=
  ⟨by decide, (c8_missing_date_column twoDateSheet).1.mpr (by decide)⟩

theorem findIdx_append_left {α : Type} (p : α → Bool) : ∀ (l1 l2 : List α),
    l1.findIdx p < l1.length → (l1 ++ l2).findIdx p = l1.findIdx p := by
  intro l1 l2
  induction l1 with
  | nil => intro h; simp at h
  | cons a l ih =>
    intro h
    cases hpa : p a with
    | true => simp [List.findIdx_cons, hpa]
    | false =>
      simp only [List.findIdx_cons, hpa, cond_false, List.length_cons] at h
      have h2 : l.findIdx p < l.length := by omega
      simp only [List.cons_append, List.findIdx_cons, hpa, cond_false, ih h2]

theorem countDate_mem {cols : List String} (h : 0 < countDate cols) : "Date" ∈ cols := by
  obtain ⟨c, hc, hpc⟩ := List.countP_pos_iff.mp h
  have he : c = "Date" := by simpa using hpc
  rw [← he]
  exact hc

theorem dateIdx_lt {cols : List String} (h : "Date" ∈ cols) : dateIdx cols < cols.length :=
  List.findIdx_lt_length_of_exists ⟨"Date", h, by simp⟩

theorem countDate_eraseIdx {cols : List String} (h : countDate cols = 1) :
    countDate (cols.eraseIdx (dateIdx cols)) = 0 := by
  induction cols with
  | nil => simp [countDate] at h
  | cons c rest ih =>
    by_cases hc : c = "Date"
    · subst hc
      have hr : countDate rest = 0 := by
        simp [countDate, List.countP_cons] at h
        simpa [countDate] using h
      have hidx : dateIdx ("Date" :: rest) = 0 := by
        simp [dateIdx, List.findIdx_cons]
      rw [hidx]
      simpa [countDate] using hr
    · have hbc : (c == "Date") = false := by simpa using hc
      have hidx : dateIdx (c :: rest) = dateIdx rest + 1 := by
        simp [dateIdx, List.findIdx_cons, hbc]
      have hcr : countDate rest = 1 := by
        simpa [countDate, List.countP_cons, hbc] using h
      have hrec := ih hcr
      rw [hidx]
      simpa [countDate, List.countP_cons, hbc, List.eraseIdx_cons_succ] using hrec

theorem not_date_mem_eraseIdx {cols : List String} (h : countDate cols = 1) :
    "Date" ∉ cols.eraseIdx (dateIdx cols) := by
  intro hmem
  have h0 := countDate_eraseIdx h
  have h1 : 0 < countDate (cols.eraseIdx (dateIdx cols)) :=
    List.countP_pos_iff.mpr ⟨"Date", hmem, by simp⟩
  omega

theorem flatMap_congr_mem {α β : Type} : ∀ (l : List α) (f g : α → List β),
    (∀ a ∈ l, f a = g a) → l.flatMap f = l.flatMap g := by
  intro l f g
  induction l with
  | nil => intro _; rfl
  | cons a t ih =>
    intro h
    simp only [List.flatMap_cons]
    rw [h a (by simp), ih (fun x hx => h x (by simp [hx]))]

theorem flatMap_ite_filter {α β : Type} (P : α → Bool) (w : α → List β) :
    ∀ l : List α, l.flatMap (fun d => if P d then [w d] else []) = (l.filter P).map w := by
  intro l
  induction l with
  | nil => rfl
  | cons a t ih =>
    cases hpa : P a with
    | true => simp [List.flatMap_cons, List.filter_cons, hpa, ih]
    | false => simp [List.flatMap_cons, List.filter_cons, hpa, ih]

theorem filter_unique_key {α β : Type} [DecidableEq β] (k : α → β) (d : β) (p : α → Bool)
    (hp : ∀ r, p r = true ↔ k r = d) :
    ∀ (rows : List α) (r0 : α), (rows.map k).Nodup → r0 ∈ rows → k r0 = d →
    rows.filter p = [r0] ∧ rows.find? p = some r0 := by
  intro rows
  induction rows with
  | nil => intro r0 _ h; simp at h
  | cons r t ih =>
    intro r0 hnd hmem hk
    simp only [List.map_cons, List.nodup_cons] at hnd
    obtain ⟨hnd1, hnd2⟩ := hnd
    rcases List.mem_cons.mp hmem with rfl | hmem2
    · have hfil : t.filter p = [] := by
        refine List.filter_eq_nil_iff.mpr ?_
        intro x hx hpx
        exact hnd1 ((((hp x).mp hpx).trans hk.symm) ▸ List.mem_map_of_mem k hx)
      constructor
      · rw [List.filter_cons_of_pos (by rw [hp]; exact hk), hfil]
      · exact List.find?_cons_of_pos _ (by rw [hp]; exact hk)
    · have hkr : p r = false := by
        by_contra hcon
        have hpr : p r = true := by
          cases hp2 : p r
          · exact absurd hp2 hcon
          · rfl
        have he : k r = d := (hp r).mp hpr
        have hm : k r ∈ t.map k := by
          rw [he, ← hk]
          exact List.mem_map_of_mem k hmem2
        exact hnd1 hm
      obtain ⟨hf, hfind⟩ := ih r0 hnd2 hmem2 hk
      constructor
      · rw [List.filter_cons_of_neg (by simp [hkr]), hf]
      · rw [List.find?_cons_of_neg _ (by simp [hkr]), hfind]

theorem rows_eq_map_key {α β : Type} [DecidableEq β] (k : α → β) (dflt : α) :
    ∀ rows : List α, (rows.map k).Nodup →
    rows = (rows.map k).map
      (fun d => (rows.find? (fun r => decide (k r = d))).getD dflt) := by
  intro rows
  induction rows with
  | nil => intro _; rfl
  | cons r t ih =>
    intro hnd
    simp only [List.map_cons, List.nodup_cons] at hnd
    obtain ⟨hnd1, hnd2⟩ := hnd
    simp only [List.map_cons]
    congr 1
    · rw [List.find?_cons_of_pos _ (by simp)]
      rfl
    · have hcongr : ∀ d ∈ t.map k,
          (((r :: t).find? (fun x => decide (k x = d))).getD dflt) =
          ((t.find? (fun x => decide (k x = d))).getD dflt) := by
        intro d hd
        have hne : ¬ (k r = d) := fun he => hnd1 (he ▸ hd)
        rw [List.find?_cons_of_neg _ (by simp [hne])]
      rw [List.map_congr_left hcongr]
      exact ih hnd2

theorem rowAt_mem (g : DataFrame) (hnd : (datesOf g).Nodup) {d : Option Cell}
    (h : d ∈ datesOf g) : rowAt g d ∈ g.rows := by
  obtain ⟨r0, hr0, hk⟩ := List.mem_map.mp h
  obtain ⟨_, hfind⟩ :=
    filter_unique_key (keyAt g) d (fun r => decide (keyAt g r = d)) (fun r => by simp)
      g.rows r0 hnd hr0 hk
  rw [rowAt, hfind]
  simpa using hr0

theorem rowAt_key (g : DataFrame) (hnd : (datesOf g).Nodup) {d : Option Cell}
    (h : d ∈ datesOf g) : (rowAt g d).get? (dateIdx g.cols) = d := by
  obtain ⟨r0, hr0, hk⟩ := List.mem_map.mp h
  obtain ⟨_, hfind⟩ :=
    filter_unique_key (keyAt g) d (fun r => decide (keyAt g r = d)) (fun r => by simp)
      g.rows r0 hnd hr0 hk
  rw [rowAt, hfind]
  simpa [keyAt] using hk

theorem rows_eq_map_rowAt (g : DataFrame) (hnd : (datesOf g).Nodup) :
    g.rows = (datesOf g).map (rowAt g) :=
  rows_eq_map_key (keyAt g) [] g.rows hnd

theorem rows_filter_flipped (g : DataFrame) (hnd : (datesOf g).Nodup) (d : Option Cell) :
    g.rows.filter (fun ry => decide (d = ry.get? (dateIdx g.cols))) =
      if d ∈ datesOf g then [rowAt g d] else [] := by
  by_cases h : d ∈ datesOf g
  · rw [if_pos h]
    obtain ⟨r0, hr0, hk⟩ := List.mem_map.mp h
    have hp : ∀ r : List Cell,
        (decide (d = r.get? (dateIdx g.cols)) = true) ↔ keyAt g r = d := by
      intro r
      simp [keyAt, eq_comm]
    obtain ⟨hfil, _⟩ := filter_unique_key (keyAt g) d _ hp g.rows r0 hnd hr0 hk
    obtain ⟨_, hfind⟩ :=
      filter_unique_key (keyAt g) d (fun r => decide (keyAt g r = d)) (fun r => by simp)
      g.rows r0 hnd hr0 hk
    rw [hfil, rowAt, hfind]
    rfl
  · rw [if_neg h]
    refine List.filter_eq_nil_iff.mpr ?_
    intro r hr
    simp only [decide_eq_true_eq]
    intro he
    exact h (by rw [he]; exact List.mem_map_of_mem (keyAt g) hr)

theorem foldl_merge_eq : ∀ (gs : List DataFrame) (M : DataFrame)
    (commonD : List (Option Cell)) (rowF : Option Cell → List Cell),
    countDate M.cols = 1 →
    M.rows = commonD.map rowF →
    commonD.Nodup →
    (∀ d ∈ commonD, (rowF d).length = M.cols.length) →
    (∀ d ∈ commonD, (rowF d).get? (dateIdx M.cols) = d) →
    (∀ g ∈ gs, countDate g.cols = 1) →
    (∀ g ∈ gs, ∀ r ∈ g.rows, r.length = g.cols.length) →
    (∀ g ∈ gs, (datesOf g).Nodup) →
    (∀ g ∈ gs, ∀ c ∈ M.cols, c ∈ g.cols → c = "Date") →
    gs.Pairwise (fun a b => ∀ c ∈ a.cols, c ∈ b.cols → c = "Date") →
    (gs.foldl merge M).cols =
        M.cols ++ (gs.map (fun g => g.cols.eraseIdx (dateIdx g.cols))).flatten
    ∧ (gs.foldl merge M).rows =
        (commonD.filter (fun d => gs.all (fun g => decide (d ∈ datesOf g)))).map
          (fun d => rowF d ++ (gs.map (fun g => (rowAt g d).eraseIdx (dateIdx g.cols))).flatten) := by
  intro gs
  induction gs with
  | nil =>
    intro M commonD rowF h1 h2 h3 h4 h5 h6 h7 h8 h9 h10
    constructor
    · simp
    · simp only [List.foldl_nil, List.map_nil, List.flatten_nil, List.all_nil]
      rw [List.filter_true, h2]
      apply List.map_congr_left
      intro d _
      simp
  | cons g gs ih =>
    intro M commonD rowF h1 h2 h3 h4 h5 h6 h7 h8 h9 h10
    have hg1 : countDate g.cols = 1 := h6 g (List.mem_cons_self g gs)
    have hgwf := h7 g (List.mem_cons_self g gs)
    have hgnd : (datesOf g).Nodup := h8 g (List.mem_cons_self g gs)
    have hdMg : ∀ c ∈ M.cols, c ∈ g.cols → c = "Date" := h9 g (List.mem_cons_self g gs)
    have hMdate : "Date" ∈ M.cols := countDate_mem (by omega)
    have hxi : dateIdx M.cols < M.cols.length := dateIdx_lt hMdate
    have hgdate : "Date" ∈ g.cols := countDate_mem (by omega)
    have hyi : dateIdx g.cols < g.cols.length := dateIdx_lt hgdate
    have hyR0 : countDate (g.cols.eraseIdx (dateIdx g.cols)) = 0 := countDate_eraseIdx hg1
    have hyRnd : "Date" ∉ g.cols.eraseIdx (dateIdx g.cols) := not_date_mem_eraseIdx hg1
    have hA : (merge M g).cols = M.cols ++ g.cols.eraseIdx (dateIdx g.cols) := by
      show (M.cols.map (fun c =>
          if c ≠ "Date" ∧ c ∈ g.cols.eraseIdx (dateIdx g.cols) then c ++ "_x" else c))
        ++ ((g.cols.eraseIdx (dateIdx g.cols)).map (fun c =>
          if c ≠ "Date" ∧ c ∈ M.cols then c ++ "_y" else c)) = _
      congr 1
      · have hx : ∀ c ∈ M.cols,
            (if c ≠ "Date" ∧ c ∈ g.cols.eraseIdx (dateIdx g.cols)
             then c ++ "_x" else c) = c := by
          intro c hc
          rw [if_neg]
          rintro ⟨hcd, hcy⟩
          exact hcd
            (hdMg c hc ((List.eraseIdx_sublist g.cols (dateIdx g.cols)).subset hcy))
        rw [List.map_congr_left hx, List.map_id']
      · have hy : ∀ c ∈ g.cols.eraseIdx (dateIdx g.cols),
            (if c ≠ "Date" ∧ c ∈ M.cols then c ++ "_y" else c) = c := by
          intro c hc
          rw [if_neg]
          rintro ⟨hcd, hcm⟩
          exact hcd
            (hdMg c hcm ((List.eraseIdx_sublist g.cols (dateIdx g.cols)).subset hc))
        rw [List.map_congr_left hy, List.map_id']
    have hB : dateIdx (merge M g).cols = dateIdx M.cols := by
      rw [hA]
      exact findIdx_append_left _ _ _ hxi
    have hC : countDate (merge M g).cols = 1 := by
      rw [hA]
      unfold countDate at hyR0 h1 ⊢
      rw [List.countP_append]
      omega
    have hD : (merge M g).rows =
        (commonD.filter (fun d => decide (d ∈ datesOf g))).map
          (fun d => rowF d ++ (rowAt g d).eraseIdx (dateIdx g.cols)) := by
      have hpoint : ∀ d ∈ commonD,
          ((g.rows.filter (fun ry =>
            decide ((rowF d).get? (dateIdx M.cols) = ry.get? (dateIdx g.cols)))).map
            (fun ry => rowF d ++ ry.eraseIdx (dateIdx g.cols))) =
          (if decide (d ∈ datesOf g) then
            [rowF d ++ (rowAt g d).eraseIdx (dateIdx g.cols)] else []) := by
        intro d hd
        simp only [h5 d hd]
        rw [rows_filter_flipped g hgnd d]
        by_cases hmem : d ∈ datesOf g
        · simp [hmem]
        · simp [hmem]
      show (M.rows.flatMap fun rx =>
        (g.rows.filter (fun ry =>
          decide (rx.get? (dateIdx M.cols) = ry.get? (dateIdx g.cols)))).map
          (fun ry => rx ++ ry.eraseIdx (dateIdx g.cols))) = _
      rw [h2]
      rw [show ((commonD.map rowF).flatMap fun rx =>
        (g.rows.filter (fun ry =>
          decide (rx.get? (dateIdx M.cols) = ry.get? (dateIdx g.cols)))).map
          (fun ry => rx ++ ry.eraseIdx (dateIdx g.cols))) =
        (commonD.flatMap fun d =>
          (g.rows.filter (fun ry =>
            decide ((rowF d).get? (dateIdx M.cols) = ry.get? (dateIdx g.cols)))).map
            (fun ry => rowF d ++ ry.eraseIdx (dateIdx g.cols))) from by
        simp [List.flatMap_map]]
      rw [flatMap_congr_mem _ _ _ hpoint]
      exact flatMap_ite_filter _ _ commonD
    have hlen' : ∀ d ∈ commonD.filter (fun d => decide (d ∈ datesOf g)),
        (rowF d ++ (rowAt g d).eraseIdx (dateIdx g.cols)).length = (merge M g).cols.length := by
      intro d hd
      obtain ⟨hdc, hdg⟩ := List.mem_filter.mp hd
      have hdg2 : d ∈ datesOf g := by simpa using hdg
      have hrl : (rowAt g d).length = g.cols.length := hgwf _ (rowAt_mem g hgnd hdg2)
      have e1 : ((rowAt g d).eraseIdx (dateIdx g.cols)).length = g.cols.length - 1 := by
        rw [List.length_eraseIdx, hrl]
        simp [hyi]
      have e2 : (g.cols.eraseIdx (dateIdx g.cols)).length = g.cols.length - 1 := by
        rw [List.length_eraseIdx]
        simp [hyi]
      rw [List.length_append, hA, List.length_append, h4 d hdc, e1, e2]
    have hkey' : ∀ d ∈ commonD.filter (fun d => decide (d ∈ datesOf g)),
        ((rowF d ++ (rowAt g d).eraseIdx (dateIdx g.cols)).get? (dateIdx (merge M g).cols)) = d := by
      intro d hd
      obtain ⟨hdc, _⟩ := List.mem_filter.mp hd
      rw [hB, List.get?_append (by rw [h4 d hdc]; exact hxi)]
      exact h5 d hdc
    have hdisj' : ∀ g2 ∈ gs, ∀ c ∈ (merge M g).cols, c ∈ g2.cols → c = "Date" := by
      intro g2 hg2 c hc hcg2
      rw [hA] at hc
      rcases List.mem_append.mp hc with hcm | hcy
      · exact h9 g2 (List.mem_cons_of_mem g hg2) c hcm hcg2
      · have hcg : c ∈ g.cols := (List.eraseIdx_sublist g.cols (dateIdx g.cols)).subset hcy
        exact (List.pairwise_cons.mp h10).1 g2 hg2 c hcg hcg2
    obtain ⟨ihc, ihr⟩ := ih (merge M g)
      (commonD.filter (fun d => decide (d ∈ datesOf g)))
      (fun d => rowF d ++ (rowAt g d).eraseIdx (dateIdx g.cols))
      hC hD (h3.filter _) hlen' hkey'
      (fun g2 hg2 => h6 g2 (List.mem_cons_of_mem g hg2))
      (fun g2 hg2 => h7 g2 (List.mem_cons_of_mem g hg2))
      (fun g2 hg2 => h8 g2 (List.mem_cons_of_mem g hg2))
      hdisj'
      (List.pairwise_cons.mp h10).2
    constructor
    · rw [List.foldl_cons, ihc, hA]
      simp [List.append_assoc]
    · rw [List.foldl_cons, ihr, List.filter_filter]
      have hfeq : (fun d => (gs.all (fun g2 => decide (d ∈ datesOf g2)))
            && decide (d ∈ datesOf g)) =
          (fun d => (g :: gs).all (fun g2 => decide (d ∈ datesOf g2))) := by
        funext d
        rw [List.all_cons]
        exact Bool.and_comm _ _
      rw [hfeq]
      apply List.map_congr_left
      intro d _
      simp [List.append_assoc]

theorem format_countDate (df f : DataFrame) (h : format_ABS_df df = Except.ok f) :
    countDate f.cols = 1 := by
  unfold format_ABS_df remove_ABS_headers at h
  cases hc : countDate (rename_cols df).cols with
  | zero =>
    rw [hc] at h
    simp at h
  | succ n =>
    cases n with
    | zero =>
      rw [hc] at h
      simp at h
      rw [← h]
      simpa using hc
    | succ m =>
      rw [hc] at h
      simp at h

theorem formatAll_countDate : ∀ (l : List DataFrame) (fs : List DataFrame),
    formatAll l = Except.ok fs → ∀ g ∈ fs, countDate g.cols = 1 := by
  intro l
  induction l with
  | nil =>
    intro fs h g hg
    simp only [formatAll] at h
    rw [← Except.ok.inj h] at hg
    simp at hg
  | cons df rest ih =>
    intro fs h g hg
    cases hfd : format_ABS_df df with
    | error q => simp [formatAll, hfd] at h
    | ok f0 =>
      cases hfr : formatAll rest with
      | error q => simp [formatAll, hfd, hfr] at h
      | ok fs0 =>
        simp only [formatAll, hfd, hfr] at h
        rw [← Except.ok.inj h] at hg
        rcases List.mem_cons.mp hg with rfl | hg2
        · exact format_countDate df g hfd
        · exact ih fs0 hfr g hg2

/-- Claim C2 counterexample: a workbook with one Data sheet holding two rows
    with the same Date value materializes to a table with two rows for a
    single common Date value, contradicting "one row per Date value common
    to all kept sheets". -/
theorem c2_counterexample :
    process_dataframes [("Data1", dupDateSheet)] = Except.ok dupMerged
    ∧ dupMerged.rows.length = 2
    ∧ (datesOf dupMerged).dedup.length = 1 :=
  ⟨by rfl, by rfl, by decide⟩

/-- Claim C2 (amended): provided every kept sheet cleans successfully, its
    rows are as wide as its column list, its dated rows carry pairwise
    distinct Date values, and distinct kept sheets share no non-Date column
    name, table materialization returns exactly the inner join on "Date" of
    the kept-and-cleaned sheets: one row per Date value of the first sheet
    common to all kept sheets (in first-sheet order), carrying the columns of
    every kept sheet (the Date column once). Without the distinctness
    proviso, equal Date values multiply rows as in the counterexample. -/
theorem c2_merged_table (wb : List (String × DataFrame)) (f : DataFrame)
    (rest : List DataFrame)
    (hfs : formatAll ((wb.filter (fun p => strContains p.1 "Data")).map Prod.snd) =
      Except.ok (f :: rest))
    (hwf : ∀ g ∈ f :: rest, ∀ r ∈ g.rows, r.length = g.cols.length)
    (hnd : ∀ g ∈ f :: rest, (datesOf g).Nodup)
    (hdisj : (f :: rest).Pairwise (fun a b => ∀ c ∈ a.cols, c ∈ b.cols → c = "Date")) :
    process_dataframes wb = Except.ok (joinSpec f rest)
    ∧ (joinSpec f rest).rows.length =
      ((datesOf f).filter (fun d => rest.all (fun g => decide (d ∈ datesOf g)))).length := by
  have hcd : ∀ g2 ∈ f :: rest, countDate g2.cols = 1 := formatAll_countDate _ _ hfs
  have hfnd := hnd f (List.mem_cons_self f rest)
  obtain ⟨hcols, hrows⟩ := foldl_merge_eq rest f (datesOf f) (rowAt f)
    (hcd f (List.mem_cons_self f rest))
    (rows_eq_map_rowAt f hfnd)
    hfnd
    (fun d hd => hwf f (List.mem_cons_self f rest) _ (rowAt_mem f hfnd hd))
    (fun d hd => rowAt_key f hfnd hd)
    (fun g hg => hcd g (List.mem_cons_of_mem f hg))
    (fun g hg => hwf g (List.mem_cons_of_mem f hg))
    (fun g hg => hnd g (List.mem_cons_of_mem f hg))
    (List.pairwise_cons.mp hdisj).1
    (List.pairwise_cons.mp hdisj).2
  constructor
  · simp only [process_dataframes, hfs]
    congr 1
    cases hM : rest.foldl merge f with
    | mk mcols mrows =>
      rw [hM] at hcols hrows
      unfold joinSpec
      simp only [DataFrame.mk.injEq]
      exact ⟨hcols, hrows⟩
  · simp [joinSpec]

/-- Claim C2 witness: a two-sheet workbook with decorative rows; the merged
    table has the one common Date row and the columns of both sheets. -/
theorem c2_witness :
    process_dataframes [("Data1", c2sheet1), ("Data2", c2sheet2)] =
      Except.ok (joinSpec c2f1 [c2f2])
    ∧ joinSpec c2f1 [c2f2] =
      { cols := ["Date", "A", "B"], rows := [[Cell.date 2, Cell.num 20, Cell.num 200]] } :=
  ⟨(c2_merged_table [("Data1", c2sheet1), ("Data2", c2sheet2)] c2f1 [c2f2]
      (by rfl) (by decide) (by decide) (by decide)).1,
   by rfl⟩
